import Mathlib

/-!
Verification development for the ARIP model-extraction, atom-filtering,
classification and per-model orchestration pipeline (`arip3/ARIP_main.py`).

Lines of the structure file are modelled as `List Char`.  Python string
slicing `s[a:b]` becomes `pySlice`, single-character indexing `s[i]`
becomes `pyCharAt` (PDB atom records are long enough that the index is
always in range on the inputs the claims are about), `str.lstrip()` /
`str.strip()` become `lstrip` / `strip`, and the substring test
`'OXT' in line` becomes `containsSub`.  Fallible Python code (KeyError,
ValueError, the `die` helper) is modelled with `Except Unit`.
-/

deriving instance DecidableEq for Except

namespace Arip

/-- Python `s[a:b]` slicing on lists: silently truncates out-of-range bounds. -/
def pySlice {α : Type} (l : List α) (a b : Nat) : List α :=
  (l.drop a).take (b - a)

/-- Python `s[i]` single-character indexing; out-of-range reads give a junk
character (the real code would raise, but no admitted PDB record is that short). -/
def pyCharAt (l : List Char) (i : Nat) : Char :=
  l.getD i (Char.ofNat 0)

/-- Python `str.lstrip()` with no arguments: drop leading whitespace. -/
def lstrip (l : List Char) : List Char :=
  l.dropWhile Char.isWhitespace

/-- Python `str.rstrip()` with no arguments: drop trailing whitespace. -/
def rstrip (l : List Char) : List Char :=
  (l.reverse.dropWhile Char.isWhitespace).reverse

/-- Python `str.strip()` with no arguments. -/
def strip (l : List Char) : List Char :=
  rstrip (lstrip l)

/-- Python `str.startswith(pat)` on character lists. -/
def startsWithL : List Char → List Char → Bool
  | [], _ => true
  | _ :: _, [] => false
  | p :: ps, c :: cs => if p = c then startsWithL ps cs else false

/-- Python `pat in s` substring containment on character lists. -/
def containsSub (n : List Char) : List Char → Bool
  | [] => startsWithL n []
  | c :: cs => startsWithL n (c :: cs) || containsSub n cs

/-- Characters of the `MODEL` block-begin marker. -/
def modelMarker : List Char := ['M', 'O', 'D', 'E', 'L']

/-- Characters of the `ENDMDL` block-end marker. -/
def endmdlMarker : List Char := ['E', 'N', 'D', 'M', 'D', 'L']

/-- Characters of the `ATOM` record type. -/
def atomMarker : List Char := ['A', 'T', 'O', 'M']

/-- Characters of the `HETATM` record type. -/
def hetatmMarker : List Char := ['H', 'E', 'T', 'A', 'T', 'M']

/-- The terminal-oxygen atom-name label `OXT`. -/
def oxtChars : List Char := ['O', 'X', 'T']

/-- The water residue name `HOH`. -/
def hohChars : List Char := ['H', 'O', 'H']

/-- The hydrogen element symbol `H`. -/
def hChars : List Char := ['H']

/-- Record-type test `line.startswith('ATOM') or line.startswith('HETATM')`
(ARIP_main.py lines 37 and 62). -/
def isAtomRec (l : List Char) : Bool :=
  startsWithL atomMarker l || startsWithL hetatmMarker l

/-- The four admissibility conditions shared by both branches of
`load_atom_models` (ARIP_main.py lines 50-53 and 63-66): no `OXT` substring,
altloc blank or `'A'`, element (left-stripped columns 76-78) not hydrogen,
residue columns 17-20 not water. -/
def commonFilter (l : List Char) : Bool :=
  !containsSub oxtChars l
    && (pyCharAt l 16 == ' ' || pyCharAt l 16 == 'A')
    && !(lstrip (pySlice l 76 78) == hChars)
    && !(pySlice l 17 20 == hohChars)

/-- Admissibility predicate of the multi-model branch (ARIP_main.py
lines 60-67): record type plus the four shared conditions. -/
def admittedMulti (l : List Char) : Bool :=
  isAtomRec l && commonFilter l

/-- The alternate-location indicator field, column 16. -/
def altlocOf (l : List Char) : Char := pyCharAt l 16

/-- Composite atomic-site key: chain id (column 21), residue sequence
field (columns 22-26), and the trimmed atom-name field (columns 12-16). -/
def siteKey (l : List Char) : Char × List Char × List Char :=
  (pyCharAt l 21, pySlice l 22 26, strip (pySlice l 12 16))

/-- Line at index `i` of a file (junk line when out of range). -/
def pyLineAt (lines : List (List Char)) (i : Nat) : List Char :=
  lines.getD i []

/-- Indices of `MODEL` marker lines, in file order (ARIP_main.py line 33):
`[i for i in range(len(lines)) if lines[i].startswith('MODEL')]`. -/
def beginIdxs (lines : List (List Char)) : List Nat :=
  (List.range lines.length).filter (fun i => startsWithL modelMarker (pyLineAt lines i))

/-- Indices of `ENDMDL` marker lines, in file order (ARIP_main.py line 34). -/
def endIdxs (lines : List (List Char)) : List Nat :=
  (List.range lines.length).filter (fun i => startsWithL endmdlMarker (pyLineAt lines i))

/-- Model extraction and atom filtering, `load_atom_models`
(ARIP_main.py lines 33-70), applied to the line list that remains after the
file loader has discarded the first line.  The three-way marker policy of
lines 36-41 (`die` on mismatched counts becomes `.error ()`), then the
per-branch admissibility filtering of lines 45-68.  In the multi-model
branch model `i+1` is the raw slice `lines[MODEL[i] : ENDMDL[i]]` filtered
by `admittedMulti`; in the single-model branch the record-type filter of
line 37 is applied first and the remaining four conditions afterwards. -/
def load_atom_models (lines : List (List Char)) :
    Except Unit (List (Int × List (List Char))) :=
  let B := beginIdxs lines
  let E := endIdxs lines
  if B = [] ∧ E = [] then
    .ok [(-1, List.filter commonFilter (List.filter isAtomRec lines))]
  else if B ≠ [] ∧ B.length = E.length then
    .ok ((List.range B.length).map (fun i =>
      ((Int.ofNat i + 1), List.filter admittedMulti (pySlice lines (B.getD i 0) (E.getD i 0)))))
  else
    .error ()

/-- The lines strictly between the `i`-th Begin marker and the `i`-th End
marker, both markers excluded. -/
def interiorSlice (lines : List (List Char)) (i : Nat) : List (List Char) :=
  pySlice lines ((beginIdxs lines).getD i 0 + 1) ((endIdxs lines).getD i 0)

/-- A property tuple of the physicochemical lookup table: radius, type tag,
baseline surface, baseline volume.  Numeric columns (Python floats in the
code) are modelled by `Int`: no claim depends on fractional values or on
floating-point rounding, and the only arithmetic the analysed code performs
on them — one addition of the fixed water-probe addend — is exact. -/
structure Props where
  R : Int
  typ : String
  Surf : Int
  Volu : Int
deriving DecidableEq

/-- Modelled from the spec: the static physicochemical lookup table of the
`PDB_constants` module, which is not among the given source files.  Per
spec §2/§3/§4.4 it maps residue names to sub-tables (keyed by atom name for
amino acids, by full element for nucleotides, by element for the `UNDEF`
catch-all bucket), and `AA` / `NT` are the two fixed residue-name sets with
their abbreviation maps (one-letter for amino acids, short codes for
nucleotides).  `Radius_H2O` is the fixed water-probe addend.  Sub-tables
are association lists so that every lookup is executable. -/
structure LookupTable where
  Radius : List (String × List (String × Props))
  AA : List (String × String)
  NT : List (String × String)
  Radius_H2O : Int

/-- Modelled from the spec: the amino-acid and nucleotide residue-name sets
are disjoint (spec §3, the three partitioned views are "mutually
exclusive"). -/
def TableWF (tbl : LookupTable) : Prop :=
  ∀ s, (tbl.AA.lookup s).isSome = true → (tbl.NT.lookup s).isSome = true → False

/-- Modelled from the spec: the numeric field parsers of the host language
(Python `float(...)` on the coordinate columns and `int(...)` on the residue
sequence column, spec §4.4 "three coordinate values parsed from fixed byte
ranges", "numeric residue sequence").  They are abstract parameters — an
error models the exception a malformed field raises — since no claim
depends on the numeric grammar itself. -/
structure PyPrims where
  pyFloat : List Char → Except Unit Int
  pyInt : List Char → Except Unit Int

/-- Pack a character list into a `String` (lookup keys are strings). -/
def toStr (l : List Char) : String := ⟨l⟩

/-- Residue name of an atom record: `atom[17:20].lstrip()` (line 89). -/
def resOf (atom : List Char) : String := toStr (lstrip (pySlice atom 17 20))

/-- Atom name of an atom record: `atom[12:16].strip()` (line 91). -/
def anaOf (atom : List Char) : String := toStr (strip (pySlice atom 12 16))

/-- Element of an atom record: `atom[76:78].lstrip()` (line 92). -/
def eleOf (atom : List Char) : String := toStr (lstrip (pySlice atom 76 78))

/-- Property resolution for one atom, `parse_atom_model` lines 102-122.
The list collects the tuples appended to the `R`/`Type`/`Surf`/`Volu`
columns for this atom (the two inner `if`s are not mutually exclusive in
the code, hence a list).  `.error ()` models an uncaught `KeyError`
(`Radius[Res][Ele]` or `Radius['UNDEF'][Ele]` with a missing key) or the
`IndexError` of `Ana[0]` on an empty atom name. -/
def propsForAtom (tbl : LookupTable) (Res Ana Ele : String) :
    Except Unit (List Props) :=
  match tbl.Radius.lookup Res with
  | some sub =>
    let l1 : List Props :=
      if (tbl.AA.lookup Res).isSome then
        match sub.lookup Ana with
        | some p => [p]
        | none => []
      else []
    if (tbl.NT.lookup Res).isSome then
      if Ana = "" then .error ()
      else if (sub.lookup (Ana.take 1)).isSome then
        match sub.lookup Ele with
        | some p => .ok (l1 ++ [p])
        | none => .error ()
      else .ok l1
    else .ok l1
  | none =>
    match (tbl.Radius.lookup "UNDEF").bind (fun u => u.lookup Ele) with
    | some p => .ok [p]
    | none => .error ()

/-- Property resolution applied to a raw atom line. -/
def propsForAtomLine (tbl : LookupTable) (atom : List Char) :
    Except Unit (List Props) :=
  propsForAtom tbl (resOf atom) (anaOf atom) (eleOf atom)

/-- The per-atom values appended to the `Chain`/`ResName`/`Atom`/`x`/`y`/`z`
columns (lines 88-100). -/
structure BaseFields where
  Chain : String
  ResName : String
  Atom : String
  x : Int
  y : Int
  z : Int
deriving DecidableEq

/-- One iteration of the `for atom in atom_model` loop (lines 88-122):
field extraction, then property resolution.  Returns the base-column
values and the (possibly empty) list of property tuples appended. -/
def atomEntry (tbl : LookupTable) (prim : PyPrims) (atom : List Char) :
    Except Unit (BaseFields × List Props) :=
  match prim.pyInt (pySlice atom 22 26) with
  | .error e => .error e
  | .ok Num =>
    match prim.pyFloat (pySlice atom 30 38) with
    | .error e => .error e
    | .ok x =>
      match prim.pyFloat (pySlice atom 38 46) with
      | .error e => .error e
      | .ok y =>
        match prim.pyFloat (pySlice atom 46 54) with
        | .error e => .error e
        | .ok z =>
          match propsForAtomLine tbl atom with
          | .error e => .error e
          | .ok ps =>
            .ok (⟨toStr [pyCharAt atom 21] ++ toString Num, resOf atom, anaOf atom,
                  x, y, z⟩, ps)

/-- The whole extraction loop over a model's atom lines. -/
def atomEntries (tbl : LookupTable) (prim : PyPrims) :
    List (List Char) → Except Unit (List (BaseFields × List Props))
  | [] => .ok []
  | atom :: rest =>
    match atomEntry tbl prim atom with
    | .error e => .error e
    | .ok e =>
      match atomEntries tbl prim rest with
      | .error e2 => .error e2
      | .ok es => .ok (e :: es)

/-- A row of the combined per-atom table before column reduction. -/
structure Row where
  Chain : String
  ResName : String
  Atom : String
  x : Int
  y : Int
  z : Int
  R : Int
  typ : String
  Surf : Int
  Volu : Int
deriving DecidableEq

/-- A row of a partitioned output table (after the `Residue` label is built
and the columns are reduced, lines 146-152). -/
structure OutRow where
  Residue : String
  Atom : String
  x : Int
  y : Int
  z : Int
  R : Int
  typ : String
  Surf : Int
  Volu : Int
deriving DecidableEq

/-- A pandas DataFrame, modelled as its column-name list plus its rows.
Column selection checks names against `cols`; the row payload keeps the
full record (a selection never alters row data the claims look at). -/
structure Df where
  cols : List String
  rows : List OutRow
deriving DecidableEq

/-- Column schema of every partitioned table (lines 150-152). -/
def outColumns : List String :=
  ["Residue", "Atom", "x", "y", "z", "R", "Type", "Surf", "Volu"]

/-- Zip one base-column record with one property tuple into a row. -/
def mkRow (b : BaseFields) (p : Props) : Row :=
  ⟨b.Chain, b.ResName, b.Atom, b.x, b.y, b.z, p.R, p.typ, p.Surf, p.Volu⟩

/-- Build an output row from a combined row and its `Residue` label. -/
def mkOut (residue : String) (r : Row) : OutRow :=
  ⟨residue, r.Atom, r.x, r.y, r.z, r.R, r.typ, r.Surf, r.Volu⟩

/-- The classifier, `parse_atom_model` (ARIP_main.py lines 73-168).
The column dictionary is built by the extraction loop; `DataFrame.from_dict`
(line 124) raises `ValueError` — modelled as `.error ()` — when the base
columns and the property columns ended up with different lengths, and
otherwise aligns them positionally (`zipWith`).  Then the water-probe
addend is added to the whole `R` column (line 127), the rows are
partitioned by residue-name membership in `AA` / `NT` (lines 134-136), the
residue names are remapped through the abbreviation tables and joined with
the chain key (`-` for standard, `;` for non-standard residues, lines
142-148), and the columns are reduced to `outColumns` (lines 150-152).
The diagnostic printing (lines 154-164) has no effect on the result and is
not modelled. -/
def parse_atom_model (tbl : LookupTable) (prim : PyPrims)
    (atom_model : List (List Char)) : Except Unit (Df × Df × Df) :=
  match atomEntries tbl prim atom_model with
  | .error e => .error e
  | .ok entries =>
  let baseCol := entries.map Prod.fst
  let propsCol := (entries.map Prod.snd).flatten
  if baseCol.length = propsCol.length then
    let rows0 := List.zipWith mkRow baseCol propsCol
    let rows := rows0.map (fun r => { r with R := r.R + tbl.Radius_H2O })
    let aa := rows.filter (fun r => (tbl.AA.lookup r.ResName).isSome)
    let nt := rows.filter (fun r => (tbl.NT.lookup r.ResName).isSome)
    let ns := rows.filter (fun r =>
      !(tbl.AA.lookup r.ResName).isSome && !(tbl.NT.lookup r.ResName).isSome)
    let aaOut := aa.map (fun r =>
      mkOut (r.Chain ++ "-" ++ ((tbl.AA.lookup r.ResName).getD "")) r)
    let ntOut := nt.map (fun r =>
      mkOut (r.Chain ++ "-" ++ ((tbl.NT.lookup r.ResName).getD "")) r)
    let nsOut := ns.map (fun r => mkOut (r.Chain ++ ";" ++ r.ResName) r)
    .ok (⟨outColumns, aaOut⟩, ⟨outColumns, ntOut⟩, ⟨outColumns, nsOut⟩)
  else .error ()

/-- Modelled from the spec: the external geometry collaborators (§6).
`pdb_dihedral_angle`, `pdb_dotarray_volume` and `pdb_dotarray_surface` are
not among the given source files; per the spec contract they are functions
returning, respectively, an angle result or a falsy sentinel (`Option`),
a pair (candidate-contact map, volume) whose simultaneous emptiness is the
resource-exhaustion signal (both components modelled as lists, empty =
falsy), and a surface result.  The reporting collaborator `pdb_csv_sort`
returns nothing; its invocation is recorded in the event trace. -/
structure Collab where
  dihedral : String → List (List Char) → Option Nat
  volume : Df → Bool → Int → List Nat × List Nat
  surface : String → Df → List Nat → Nat

/-- Observable step of one per-file run: a log line printed by the
orchestrator, or an invocation of an external collaborator with the
arguments the orchestrator passed. -/
inductive Event where
  | log (msg : String)
  | classify (model : List (List Char))
  | callDihedral (name : String) (model : List (List Char))
  | callVolume (df : Df) (density : Bool) (interval : Int)
  | callSurface (ref : String) (df : Df) (contacts : List Nat)
  | callReport (idx : Int) (name : String) (dih : Option Nat) (surf : Nat)
      (vol : List Nat) (outDp : String) (threshold : List Int) (compress : Bool)
deriving DecidableEq

/-- Whether an event is an invocation of the surface collaborator. -/
def Event.isSurfaceCall : Event → Bool
  | .callSurface _ _ _ => true
  | _ => false

/-- Whether an event is a dispatch to the reporting collaborator. -/
def Event.isReportCall : Event → Bool
  | .callReport _ _ _ _ _ _ _ _ => true
  | _ => false

/-- Whether an event is anything other than a printed log line. -/
def Event.isCall : Event → Bool
  | .log _ => false
  | _ => true

/-- Return value of `arip_analyze`: the sentinel pair `(-1, -1)` of the
memory-shortage path (line 190), or the implicit `None` of the full path
(which the `timer_s` wrapper turns into the elapsed seconds). -/
inductive AnalyzeRet where
  | memErr (code : Int × Int)
  | done
deriving DecidableEq

/-- `pd.concat([aa_df, nt_df, ns_df], axis=0)` (line 182): rows appended in
order; the three frames share the same column list. -/
def dfConcat3 (a b c : Df) : Df :=
  ⟨a.cols, a.rows ++ b.rows ++ c.rows⟩

/-- Pandas column selection `df[[...]]` (line 193): raises `KeyError`
(`.error ()`) unless every requested name is a column of the frame. -/
def dfSelect (df : Df) (wanted : List String) : Except Unit Df :=
  if wanted.all (fun c => df.cols.contains c) then .ok ⟨wanted, df.rows⟩
  else .error ()

/-- The column list requested for `contact_df` at line 193. -/
def contactWanted : List String :=
  ["Name", "x", "y", "z", "R", "Surf", "Type"]

/-- The skip message printed on the resource-exhaustion path (line 189). -/
def memSkipMsg (name : String) : String :=
  "Skipping file " ++ name ++ " due to insufficient memory or no valid atoms"

/-- Per-model pipeline `arip_analyze` (ARIP_main.py lines 171-199), with the
external collaborators passed in as `cl` and every collaborator invocation
and printed log line recorded in the returned event trace.  `.error ()`
models an exception escaping the function (caught by the caller's
file-level `try`).  The `timer_s` decoration only affects the shape of the
return value seen by the caller, captured by `AnalyzeRet`. -/
def arip_analyze (cl : Collab) (tbl : LookupTable) (prim : PyPrims)
    (idx : Int) (name : String) (atom_model : List (List Char))
    (interval : Int) (ref_fp : String) (out_dp : String)
    (threshold : List Int) (density : Bool) (compress : Bool) :
    List Event × Except Unit AnalyzeRet :=
  match parse_atom_model tbl prim atom_model with
  | .error _ => ([Event.classify atom_model], .error ())
  | .ok (aa_df, nt_df, ns_df) =>
    let dih : Option Nat :=
      if aa_df.rows ≠ [] then cl.dihedral name atom_model else none
    let dihEvs : List Event :=
      if aa_df.rows ≠ [] then [Event.callDihedral name atom_model] else []
    let atom_df := dfConcat3 aa_df nt_df ns_df
    let cv := cl.volume atom_df density interval
    let evs := Event.classify atom_model :: dihEvs
      ++ [Event.callVolume atom_df density interval]
    if cv.1 = [] ∧ cv.2 = [] then
      (evs ++ [Event.log (memSkipMsg name)], .ok (.memErr (-1, -1)))
    else
      match dfSelect atom_df contactWanted with
      | .error _ => (evs, .error ())
      | .ok contact_df =>
        let surf := cl.surface ref_fp contact_df cv.1
        (evs ++ [Event.callSurface ref_fp contact_df cv.1,
                 Event.callReport idx name dih surf cv.2 out_dp threshold compress],
         .ok .done)

/-- The "no valid atoms" skip message (lines 208-209). -/
def emptySkipMsg (name : String) (idx : Int) : String :=
  if idx = -1 then "Skipping file " ++ name ++ " due to no valid atoms"
  else "Skipping file " ++ name ++ "_MODEL_" ++ toString idx ++ " due to no valid atoms"

/-- The success log line (lines 215-216); the elapsed-seconds suffix is not
modelled (timing is real time, outside the embedding). -/
def okMsg (name : String) (idx : Int) : String :=
  if idx = -1 then "The PDB " ++ name ++ " run OK"
  else "The PDB " ++ name ++ "_MODEL_" ++ toString idx ++ " run OK"

/-- The file-level failure log line (line 218). -/
def cannotMsg (name : String) : String :=
  "The file " ++ name ++ " cannot be analyzed, perhaps it contains unsupported format, or no valid atoms"

/-- The `try`-wrapped per-model loop of `arip_main` (ARIP_main.py lines
205-218).  An empty model is skipped with a log line; otherwise
`arip_analyze` runs: an escaping exception is caught by the `except`
clause, which logs once and ends the whole loop; a memory-shortage return
(a tuple, not a float) logs nothing and the loop continues; a full run
(float elapsed time) logs the success line and the loop continues. -/
def arip_model_loop (cl : Collab) (tbl : LookupTable) (prim : PyPrims)
    (name : String) (interval : Int) (ref_fp : String) (out_dp : String)
    (threshold : List Int) (density : Bool) (compress : Bool) :
    List (Int × List (List Char)) → List Event
  | [] => []
  | (idx, m) :: rest =>
    if m = [] then
      Event.log (emptySkipMsg name idx)
        :: arip_model_loop cl tbl prim name interval ref_fp out_dp threshold density compress rest
    else
      match arip_analyze cl tbl prim idx name m interval ref_fp out_dp threshold density compress with
      | (evs, .error _) => evs ++ [Event.log (cannotMsg name)]
      | (evs, .ok (.memErr _)) =>
        evs ++ arip_model_loop cl tbl prim name interval ref_fp out_dp threshold density compress rest
      | (evs, .ok .done) =>
        evs ++ Event.log (okMsg name idx)
          :: arip_model_loop cl tbl prim name interval ref_fp out_dp threshold density compress rest

/-- Top-level per-file driver `arip_main` (lines 201-218) applied to the
already-loaded line list: model extraction (outside the `try`, so a
corrupted file aborts with no events), then the per-model loop. -/
def arip_main (cl : Collab) (tbl : LookupTable) (prim : PyPrims)
    (name : String) (lines : List (List Char)) (interval : Int)
    (ref_fp : String) (out_dp : String) (threshold : List Int)
    (density : Bool) (compress : Bool) : Except Unit (List Event) :=
  (load_atom_models lines).map
    (arip_model_loop cl tbl prim name interval ref_fp out_dp threshold density compress)

/-- Character list of a string literal (for concrete test records). -/
def strL (s : String) : List Char := s.toList

/-- A well-formed `ATOM` record: alanine alpha-carbon, blank altloc. -/
def alaLine : List Char :=
  strL "ATOM      1  CA  ALA A   7      11.000  12.000  13.000  1.00  0.00           C"

/-- A well-formed `ATOM` record with the primary alternate location `A`. -/
def alaAltA : List Char :=
  strL "ATOM      2  CB AALA A   7      11.000  12.000  13.000  1.00  0.00           C"

/-- A nucleotide (`DA`) record whose atom name `XQ` starts with a character
that is not an element key of the nucleotide sub-table, while its element
`C` is. -/
def daLine : List Char :=
  strL "ATOM      3  XQ   DA B   5       1.000   2.000   3.000  1.00  0.00           C"

/-- A water record (rejected by the filter). -/
def hohLine : List Char :=
  strL "HETATM    4  O   HOH A   9         1.0     2.0     3.0  1.00  0.00           O"

/-- A hydrogen record (rejected by the filter). -/
def hLine : List Char :=
  strL "ATOM      5  HB1 ALA A   7         1.0     2.0     3.0  1.00  0.00           H"

/-- A terminal-oxygen record (rejected by the filter). -/
def oxtLine : List Char :=
  strL "ATOM      6  OXT ALA A   7         1.0     2.0     3.0  1.00  0.00           O"

/-- A non-standard (ligand) record resolved through the catch-all bucket. -/
def ligLine : List Char :=
  strL "HETATM    7 MG    MG A   8         1.0     2.0     3.0  1.00  0.00          MG"

/-- Sub-table for alanine, keyed by atom name. -/
def alaSub : List (String × Props) :=
  [("N", ⟨3, "N3", 5, 9⟩), ("CA", ⟨2, "C4", 10, 20⟩),
   ("C", ⟨4, "C3", 8, 14⟩), ("O", ⟨5, "O1", 6, 11⟩),
   ("CB", ⟨6, "C4", 12, 23⟩)]

/-- Sub-table for deoxyadenosine, keyed by full element. -/
def daSub : List (String × Props) :=
  [("C", ⟨4, "C", 9, 16⟩), ("N", ⟨3, "N", 6, 10⟩),
   ("O", ⟨5, "O", 7, 12⟩), ("P", ⟨2, "P", 13, 24⟩)]

/-- Catch-all sub-table, keyed by element. -/
def undefSub : List (String × Props) :=
  [("C", ⟨4, "C", 9, 16⟩), ("N", ⟨3, "N", 6, 10⟩),
   ("O", ⟨5, "O", 7, 12⟩), ("MG", ⟨8, "MG", 14, 26⟩)]

/-- Modelled from the spec: a small representative instance of the
physicochemical lookup table (the real `PDB_constants` module is not among
the given source files).  Structure per spec §3/§4.4: one amino acid with
an atom-name-keyed sub-table and a one-letter abbreviation, one nucleotide
with an element-keyed sub-table and a short-code abbreviation, and the
`UNDEF` catch-all bucket; the `AA` and `NT` name sets are disjoint
(spec §3: the three views are mutually exclusive).  Numeric values are
illustrative domain data. -/
def tbl0 : LookupTable where
  Radius := [("ALA", alaSub), ("DA", daSub), ("UNDEF", undefSub)]
  AA := [("ALA", "A")]
  NT := [("DA", "DA")]
  Radius_H2O := 1

/-- Concrete numeric-field parsers for witnesses: every claim is quantified
over the parsers, so constant functions suffice. -/
def prim0 : PyPrims where
  pyFloat := fun _ => .ok 0
  pyInt := fun _ => .ok 7

/-- Concrete collaborators whose volume step succeeds (non-falsy pair). -/
def cl0 : Collab where
  dihedral := fun _ _ => some 1
  volume := fun _ _ _ => ([0], [0])
  surface := fun _ _ _ => 0

/-- Concrete collaborators whose volume step reports resource exhaustion
(the pair is simultaneously empty). -/
def clMem : Collab where
  dihedral := fun _ _ => some 1
  volume := fun _ _ _ => ([], [])
  surface := fun _ _ _ => 0

/-- A file body with one unmatched `MODEL` marker. -/
def fileUnmatched : List (List Char) := [strL "MODEL        1"]

/-- A file body with two matched marker pairs around atom records. -/
def fileTwoModels : List (List Char) :=
  [strL "MODEL        1", alaLine, strL "ENDMDL",
   strL "MODEL        2", hohLine, alaAltA, strL "ENDMDL"]

/-- A file body whose only `ENDMDL` marker occurs before its positionally
paired `MODEL` marker. -/
def fileInverted : List (List Char) :=
  [strL "ENDMDL", alaLine, strL "MODEL        1"]

lemma startsWithL_append (n t : List Char) : startsWithL n (n ++ t) = true := by
  induction n with
  | nil => rfl
  | cons c cs ih => simp [startsWithL, ih]

lemma containsSub_of_isInfix {n l : List Char} (h : n <:+: l) :
    containsSub n l = true := by
  induction l with
  | nil =>
    have : n = [] := List.eq_nil_of_infix_nil h
    subst this; rfl
  | cons c cs ih =>
    obtain ⟨s, t, hst⟩ := h
    match s, hst with
    | [], hst =>
      have : startsWithL n (c :: cs) = true := by
        rw [show c :: cs = n ++ t from hst.symm]; exact startsWithL_append n t
      simp [containsSub, this]
    | s₀ :: s', hst =>
      have hcs : n <:+: cs := ⟨s', t, by simpa using congrArg List.tail hst⟩
      simp [containsSub, ih hcs]

lemma lstrip_suffix (l : List Char) : lstrip l <:+ l :=
  List.dropWhile_suffix _

lemma rstrip_isPre (l : List Char) : rstrip l <+: l :=
  List.reverse_suffix.mp (by
    unfold rstrip
    rw [List.reverse_reverse]
    exact List.dropWhile_suffix _)

lemma strip_isInfix (l : List Char) : strip l <:+: l :=
  ((rstrip_isPre (lstrip l)).isInfix).trans ((lstrip_suffix l).isInfix)

lemma pySlice_isInfix {α : Type} (l : List α) (a b : Nat) : pySlice l a b <:+: l := by
  have h1 : pySlice l a b <+: l.drop a :=
    ⟨(l.drop a).drop (b - a), List.take_append_drop _ _⟩
  have h2 : l.drop a <:+ l := ⟨l.take a, List.take_append_drop a l⟩
  exact h1.isInfix.trans h2.isInfix

lemma lstrip_eq_self_of_length {l r : List Char} (h : lstrip l = r)
    (hl : l.length ≤ r.length) : l = r := by
  obtain ⟨s, hs⟩ := lstrip_suffix l
  rw [h] at hs
  have hlen : l.length = s.length + r.length := by
    rw [← hs]; simp
  have : s = [] := by
    apply List.eq_nil_of_length_eq_zero
    omega
  rw [this] at hs; simpa using hs.symm

lemma commonFilter_parts {l : List Char} (h : commonFilter l = true) :
    containsSub oxtChars l = false ∧
    (pyCharAt l 16 = ' ' ∨ pyCharAt l 16 = 'A') ∧
    lstrip (pySlice l 76 78) ≠ hChars ∧
    pySlice l 17 20 ≠ hohChars := by
  simp only [commonFilter, Bool.and_eq_true, Bool.or_eq_true, Bool.not_eq_true',
    beq_iff_eq, beq_eq_false_iff_ne, ne_eq] at h
  exact ⟨h.1.1.1, h.1.1.2, h.1.2, h.2⟩

/-- C3: every line admitted by the shared atom filter has a non-hydrogen
element field (after left-trimming, as the code trims it), a non-water
residue-name field (raw and as the trimmed record field), and a trimmed
atom-name field that is not the terminal-oxygen label `OXT`. -/
theorem c3_no_hydrogen_water_oxt (l : List Char) (h : commonFilter l = true) :
    lstrip (pySlice l 76 78) ≠ hChars ∧
    pySlice l 17 20 ≠ hohChars ∧
    lstrip (pySlice l 17 20) ≠ hohChars ∧
    strip (pySlice l 12 16) ≠ oxtChars := by
  obtain ⟨h1, _, h3, h4⟩ := commonFilter_parts h
  refine ⟨h3, h4, ?_, ?_⟩
  · intro heq
    apply h4
    apply lstrip_eq_self_of_length heq
    simp [pySlice, hohChars]
  · intro heq
    have hinf : oxtChars <:+: l :=
      (heq ▸ strip_isInfix (pySlice l 12 16)).trans (pySlice_isInfix l 12 16)
    rw [containsSub_of_isInfix hinf] at h1
    exact Bool.true_eq_false.mp h1

/-- C3 witness: a concrete admitted alanine record. -/
theorem c3_no_hydrogen_water_oxt_witness :
    commonFilter alaLine = true ∧
    (lstrip (pySlice alaLine 76 78) ≠ hChars ∧
     pySlice alaLine 17 20 ≠ hohChars ∧
     lstrip (pySlice alaLine 17 20) ≠ hohChars ∧
     strip (pySlice alaLine 12 16) ≠ oxtChars) :=
  ⟨by decide, c3_no_hydrogen_water_oxt alaLine (by decide)⟩

/-- C4: every admitted line has a blank or primary (`'A'`) altloc field;
consequently any two admitted lines at the same atomic site that carry a
non-blank alternate-location letter carry the same letter `'A'` — at most
one lettered alternate-location variant per site passes the filter. -/
theorem c4_altloc_primary (l₁ l₂ : List Char)
    (h₁ : commonFilter l₁ = true) (h₂ : commonFilter l₂ = true)
    (_hsite : siteKey l₁ = siteKey l₂)
    (ha₁ : altlocOf l₁ ≠ ' ') (ha₂ : altlocOf l₂ ≠ ' ') :
    (∀ l, commonFilter l = true → altlocOf l = ' ' ∨ altlocOf l = 'A') ∧
    altlocOf l₁ = 'A' ∧ altlocOf l₂ = 'A' ∧ altlocOf l₁ = altlocOf l₂ := by
  have base : ∀ l, commonFilter l = true → altlocOf l = ' ' ∨ altlocOf l = 'A' :=
    fun l h => (commonFilter_parts h).2.1
  have e₁ : altlocOf l₁ = 'A' := (base l₁ h₁).resolve_left ha₁
  have e₂ : altlocOf l₂ = 'A' := (base l₂ h₂).resolve_left ha₂
  exact ⟨base, e₁, e₂, by rw [e₁, e₂]⟩

/-- C4 witness: the primary-alternate alanine record, compared with itself
at the same site. -/
theorem c4_altloc_primary_witness :
    (commonFilter alaAltA = true ∧ siteKey alaAltA = siteKey alaAltA ∧
     altlocOf alaAltA ≠ ' ') ∧
    ((∀ l, commonFilter l = true → altlocOf l = ' ' ∨ altlocOf l = 'A') ∧
     altlocOf alaAltA = 'A' ∧ altlocOf alaAltA = 'A' ∧
     altlocOf alaAltA = altlocOf alaAltA) :=
  ⟨⟨by decide, rfl, by decide⟩,
   c4_altloc_primary alaAltA alaAltA (by decide) (by decide) rfl (by decide) (by decide)⟩

/-- C6: a file whose `MODEL` and `ENDMDL` marker counts differ always fails
with the corrupted-file error and yields no models at all. -/
theorem c6_unequal_markers_corrupted (lines : List (List Char))
    (h : (beginIdxs lines).length ≠ (endIdxs lines).length) :
    load_atom_models lines = .error () := by
  have h1 : ¬(beginIdxs lines = [] ∧ endIdxs lines = []) := by
    rintro ⟨a, b⟩; rw [a, b] at h; exact h rfl
  have h2 : ¬(beginIdxs lines ≠ [] ∧ (beginIdxs lines).length = (endIdxs lines).length) := by
    rintro ⟨_, hl⟩; exact h hl
  simp only [load_atom_models, if_neg h1, if_neg h2]

/-- C6 witness: a file with one `MODEL` marker and no `ENDMDL` marker. -/
theorem c6_unequal_markers_corrupted_witness :
    (beginIdxs fileUnmatched).length ≠ (endIdxs fileUnmatched).length ∧
    load_atom_models fileUnmatched = .error () :=
  ⟨by decide, c6_unequal_markers_corrupted fileUnmatched (by decide)⟩

lemma load_multi (lines : List (List Char)) (hne : beginIdxs lines ≠ [])
    (hlen : (beginIdxs lines).length = (endIdxs lines).length) :
    load_atom_models lines =
      .ok ((List.range (beginIdxs lines).length).map (fun i =>
        (Int.ofNat i + 1, List.filter admittedMulti
          (pySlice lines ((beginIdxs lines).getD i 0) ((endIdxs lines).getD i 0))))) := by
  have h1 : ¬(beginIdxs lines = [] ∧ endIdxs lines = []) := fun hc => hne hc.1
  have h2 : beginIdxs lines ≠ [] ∧ (beginIdxs lines).length = (endIdxs lines).length :=
    ⟨hne, hlen⟩
  simp only [load_atom_models, if_neg h1, if_pos h2]

lemma mem_beginIdxs {lines : List (List Char)} {i : Nat} (h : i ∈ beginIdxs lines) :
    i < lines.length ∧ startsWithL modelMarker (pyLineAt lines i) = true := by
  simpa [beginIdxs, List.mem_filter, List.mem_range] using h

lemma beginIdxs_getD_mem {lines : List (List Char)} {i : Nat}
    (hi : i < (beginIdxs lines).length) :
    (beginIdxs lines).getD i 0 ∈ beginIdxs lines := by
  rw [List.getD_eq_getElem _ _ hi]
  exact List.getElem_mem hi

lemma isAtomRec_of_model_marker {l : List Char}
    (h : startsWithL modelMarker l = true) : isAtomRec l = false := by
  match l with
  | [] => simp [modelMarker, startsWithL] at h
  | c :: cs =>
    simp only [modelMarker, startsWithL] at h
    split at h
    · next hc => simp [isAtomRec, startsWithL, atomMarker, hetatmMarker, ← hc]
    · exact absurd h (by simp)

lemma filter_slice_drop_begin {lines : List (List Char)} {b e : Nat}
    (hb : b < lines.length) (hM : startsWithL modelMarker (pyLineAt lines b) = true) :
    List.filter admittedMulti (pySlice lines b e) =
    List.filter admittedMulti (pySlice lines (b + 1) e) := by
  rcases Nat.lt_or_ge b e with hlt | hge
  · have hcons : pySlice lines b e = pyLineAt lines b :: pySlice lines (b + 1) e := by
      unfold pySlice pyLineAt
      rw [List.getD_eq_getElem _ _ hb, List.drop_eq_getElem_cons hb,
        show e - b = (e - (b + 1)) + 1 by omega, List.take_succ_cons]
    have hrej : admittedMulti (pyLineAt lines b) = false := by
      simp [admittedMulti, isAtomRec_of_model_marker hM]
    rw [hcons, List.filter_cons, hrej]
    simp
  · have h1 : pySlice lines b e = [] := by
      unfold pySlice; rw [show e - b = 0 by omega]; simp
    have h2 : pySlice lines (b + 1) e = [] := by
      unfold pySlice; rw [show e - (b + 1) = 0 by omega]; simp
    rw [h1, h2]

/-- C5: a file with equal nonzero `MODEL`/`ENDMDL` marker counts yields
exactly `N` models indexed `1..N` in file order; each returned model is the
admissibility-filtered contents of the region strictly between its Begin
marker and its positionally paired End marker (the Begin marker itself is
always rejected by the record-type condition), and every returned line
occurs at a file position strictly between the two markers. -/
theorem c5_matched_markers_extraction (lines : List (List Char))
    (hlen : (beginIdxs lines).length = (endIdxs lines).length)
    (hne : beginIdxs lines ≠ []) :
    ∃ ms, load_atom_models lines = .ok ms ∧
      ms.length = (beginIdxs lines).length ∧
      (∀ i, i < ms.length →
        ms.getD i (0, []) =
          (Int.ofNat i + 1, List.filter admittedMulti (interiorSlice lines i))) ∧
      (∀ i, i < ms.length → ∀ ln ∈ (ms.getD i (0, [])).2,
        ∃ p, (beginIdxs lines).getD i 0 < p ∧ p < (endIdxs lines).getD i 0 ∧
          p < lines.length ∧ pyLineAt lines p = ln) := by
  refine ⟨_, load_multi lines hne hlen, by simp, ?_, ?_⟩
  all_goals
    have hEq : ∀ i, i < (beginIdxs lines).length →
        ((List.range (beginIdxs lines).length).map (fun i =>
          (Int.ofNat i + 1, List.filter admittedMulti
            (pySlice lines ((beginIdxs lines).getD i 0) ((endIdxs lines).getD i 0))))).getD i (0, []) =
        (Int.ofNat i + 1, List.filter admittedMulti (interiorSlice lines i)) := by
      intro i hi
      have hlenmap : i < ((List.range (beginIdxs lines).length).map (fun i =>
          (Int.ofNat i + 1, List.filter admittedMulti
            (pySlice lines ((beginIdxs lines).getD i 0) ((endIdxs lines).getD i 0))))).length := by
        simpa using hi
      rw [List.getD_eq_getElem _ _ hlenmap, List.getElem_map, List.getElem_range]
      obtain ⟨hb, hM⟩ := mem_beginIdxs (beginIdxs_getD_mem hi)
      rw [interiorSlice, ← filter_slice_drop_begin hb hM]
  · intro i hi
    exact hEq i (by simpa using hi)
  · intro i hi ln hln
    have hi' : i < (beginIdxs lines).length := by simpa using hi
    rw [hEq i hi'] at hln
    have hmem : ln ∈ interiorSlice lines i := List.mem_of_mem_filter hln
    unfold interiorSlice pySlice at hmem
    obtain ⟨j, hj, hval⟩ := List.getElem_of_mem hmem
    have hjlen := hj
    rw [List.length_take, List.length_drop] at hjlen
    refine ⟨(beginIdxs lines).getD i 0 + 1 + j, by omega, by omega, by omega, ?_⟩
    rw [List.getElem_take] at hval
    rw [List.getElem_drop] at hval
    rw [pyLineAt, List.getD_eq_getElem _ _ (by omega)]
    exact hval

/-- C5 witness: a two-model file; both models extract with indices 1 and 2. -/
theorem c5_matched_markers_extraction_witness :
    ((beginIdxs fileTwoModels).length = (endIdxs fileTwoModels).length ∧
     beginIdxs fileTwoModels ≠ []) ∧
    (∃ ms, load_atom_models fileTwoModels = .ok ms ∧
      ms.length = (beginIdxs fileTwoModels).length ∧
      (∀ i, i < ms.length →
        ms.getD i (0, []) =
          (Int.ofNat i + 1, List.filter admittedMulti (interiorSlice fileTwoModels i))) ∧
      (∀ i, i < ms.length → ∀ ln ∈ (ms.getD i (0, [])).2,
        ∃ p, (beginIdxs fileTwoModels).getD i 0 < p ∧ p < (endIdxs fileTwoModels).getD i 0 ∧
          p < fileTwoModels.length ∧ pyLineAt fileTwoModels p = ln)) :=
  ⟨⟨by decide, by decide⟩,
   c5_matched_markers_extraction fileTwoModels (by decide) (by decide)⟩

/-- C10: pairing is purely positional; if the `i`-th `ENDMDL` marker occurs
before the `i`-th `MODEL` marker, extraction still succeeds and the `i`-th
returned model has an empty admitted line list. -/
theorem c10_positional_pairing_inverted (lines : List (List Char))
    (hlen : (beginIdxs lines).length = (endIdxs lines).length)
    (hne : beginIdxs lines ≠ [])
    (i : Nat) (hi : i < (beginIdxs lines).length)
    (hinv : (endIdxs lines).getD i 0 < (beginIdxs lines).getD i 0) :
    ∃ ms, load_atom_models lines = .ok ms ∧ i < ms.length ∧
      ms.getD i (0, []) = (Int.ofNat i + 1, []) := by
  refine ⟨_, load_multi lines hne hlen, by simpa using hi, ?_⟩
  have hlenmap : i < ((List.range (beginIdxs lines).length).map (fun i =>
      (Int.ofNat i + 1, List.filter admittedMulti
        (pySlice lines ((beginIdxs lines).getD i 0) ((endIdxs lines).getD i 0))))).length := by
    simpa using hi
  rw [List.getD_eq_getElem _ _ hlenmap, List.getElem_map, List.getElem_range]
  have hempty : pySlice lines ((beginIdxs lines).getD i 0) ((endIdxs lines).getD i 0) = [] := by
    unfold pySlice
    rw [show (endIdxs lines).getD i 0 - (beginIdxs lines).getD i 0 = 0 by omega]
    simp
  rw [hempty]
  rfl

/-- C10 witness: a file whose single `ENDMDL` precedes its single `MODEL`;
extraction succeeds with one model, indexed 1, with no admitted lines. -/
theorem c10_positional_pairing_inverted_witness :
    ((beginIdxs fileInverted).length = (endIdxs fileInverted).length ∧
     beginIdxs fileInverted ≠ [] ∧ 0 < (beginIdxs fileInverted).length ∧
     (endIdxs fileInverted).getD 0 0 < (beginIdxs fileInverted).getD 0 0) ∧
    (∃ ms, load_atom_models fileInverted = .ok ms ∧ 0 < ms.length ∧
      ms.getD 0 (0, []) = (Int.ofNat 0 + 1, [])) :=
  ⟨⟨by decide, by decide, by decide, by decide⟩,
   c10_positional_pairing_inverted fileInverted (by decide) (by decide) 0
     (by decide) (by decide)⟩

/-- C2 counterexample: `daLine` is an admissible atom line of a known
nucleotide residue (`DA`) whose element (`C`) — and hence the element's
first character — is a key of the nucleotide sub-table, so the claim
demands exactly one element-keyed property tuple; the code gates on the
atom name's first character (`'X'`, absent from the sub-table) and
produces zero tuples, after which the model's table construction fails. -/
theorem c2_resolution_counterexample :
    admittedMulti daLine = true ∧
    resOf daLine = "DA" ∧ anaOf daLine = "XQ" ∧ eleOf daLine = "C" ∧
    (tbl0.NT.lookup "DA").isSome = true ∧
    tbl0.Radius.lookup "DA" = some daSub ∧
    (daSub.lookup (String.take "C" 1)).isSome = true ∧
    (daSub.lookup "C").isSome = true ∧
    propsForAtomLine tbl0 daLine = .ok [] ∧
    parse_atom_model tbl0 prim0 [daLine] = .error () := by
  decide

/-- C2 amended: resolution is three-way with the stated keys, except that
the nucleotide branch is gated on the first character of the atom name
(not of the element) and also requires the element key itself to be
present, and resolution is partial rather than total: a standard-residue
line that matches neither gate resolves to zero property tuples. -/
theorem c2_resolution_amended (tbl : LookupTable) (Res Ana Ele : String) :
    (∀ sub p, tbl.Radius.lookup Res = some sub →
      (tbl.AA.lookup Res).isSome = true → sub.lookup Ana = some p →
      tbl.NT.lookup Res = none →
      propsForAtom tbl Res Ana Ele = .ok [p]) ∧
    (∀ sub p, tbl.Radius.lookup Res = some sub → tbl.AA.lookup Res = none →
      (tbl.NT.lookup Res).isSome = true → ¬(Ana = "") →
      (sub.lookup (Ana.take 1)).isSome = true → sub.lookup Ele = some p →
      propsForAtom tbl Res Ana Ele = .ok [p]) ∧
    (∀ u p, tbl.Radius.lookup Res = none → tbl.Radius.lookup "UNDEF" = some u →
      u.lookup Ele = some p →
      propsForAtom tbl Res Ana Ele = .ok [p]) ∧
    (∀ sub, tbl.Radius.lookup Res = some sub →
      (tbl.AA.lookup Res).isSome = true → sub.lookup Ana = none →
      tbl.NT.lookup Res = none →
      propsForAtom tbl Res Ana Ele = .ok []) := by
  refine ⟨?_, ?_, ?_, ?_⟩
  · intro sub p hR hAA hAna hNT
    simp [propsForAtom, hR, hAA, hAna, hNT]
  · intro sub p hR hAA hNT hAnaNe hGate hEle
    simp [propsForAtom, hR, hAA, hNT, hAnaNe, hGate, hEle]
  · intro u p hR hU hEl
    simp [propsForAtom, hR, hU, hEl]
  · intro sub hR hAA hAna hNT
    simp [propsForAtom, hR, hAA, hAna, hNT]

/-- C2 amended witness: one concrete resolution through each of the three
branches, plus one zero-tuple outcome for an amino-acid residue with an
unknown atom name. -/
theorem c2_resolution_amended_witness :
    propsForAtom tbl0 "ALA" "CA" "C" = .ok [⟨2, "C4", 10, 20⟩] ∧
    propsForAtom tbl0 "DA" "C1" "C" = .ok [⟨4, "C", 9, 16⟩] ∧
    propsForAtom tbl0 "MG" "MG" "MG" = .ok [⟨8, "MG", 14, 26⟩] ∧
    propsForAtom tbl0 "ALA" "ZZ" "C" = .ok [] :=
  ⟨(c2_resolution_amended tbl0 "ALA" "CA" "C").1 alaSub _ (by decide) (by decide)
     (by decide) (by decide),
   (c2_resolution_amended tbl0 "DA" "C1" "C").2.1 daSub _ (by decide) (by decide)
     (by decide) (by decide) (by decide) (by decide),
   (c2_resolution_amended tbl0 "MG" "MG" "MG").2.2.1 undefSub _ (by decide)
     (by decide) (by decide),
   (c2_resolution_amended tbl0 "ALA" "ZZ" "C").2.2.2 alaSub (by decide)
     (by decide) (by decide) (by decide)⟩

lemma propsForAtom_len_le {tbl : LookupTable} {Res Ana Ele : String}
    {ps : List Props} (hwf : TableWF tbl)
    (h : propsForAtom tbl Res Ana Ele = .ok ps) : ps.length ≤ 1 := by
  simp only [propsForAtom] at h
  split at h
  · next sub heq =>
    by_cases hNT : (tbl.NT.lookup Res).isSome = true
    · have hAA : ¬((tbl.AA.lookup Res).isSome = true) := fun hAA => hwf Res hAA hNT
      rw [if_pos hNT, if_neg hAA] at h
      split at h
      · exact absurd h (by simp)
      · split at h
        · split at h
          · next p hEle =>
            injection h with h2
            subst h2
            simp
          · exact absurd h (by simp)
        · injection h with h2
          subst h2
          simp
    · rw [if_neg hNT] at h
      injection h with h2
      subst h2
      split
      · split <;> simp
      · simp
  · split at h
    · next p hU =>
      injection h with h2
      subst h2
      simp
    · exact absurd h (by simp)

lemma atomEntry_ok_props {tbl : LookupTable} {prim : PyPrims} {atom : List Char}
    {b : BaseFields} {ps : List Props}
    (h : atomEntry tbl prim atom = .ok (b, ps)) :
    propsForAtomLine tbl atom = .ok ps ∧ b.Atom = anaOf atom := by
  simp only [atomEntry] at h
  split at h
  · exact absurd h (by simp)
  · split at h
    · exact absurd h (by simp)
    · split at h
      · exact absurd h (by simp)
      · split at h
        · exact absurd h (by simp)
        · split at h
          · exact absurd h (by simp)
          · next ps' hps =>
            injection h with h2
            injection h2 with hb hp
            constructor
            · rw [hps, hp]
            · rw [← hb]

lemma atomEntries_mem {tbl : LookupTable} {prim : PyPrims}
    {ms : List (List Char)} {es : List (BaseFields × List Props)}
    (h : atomEntries tbl prim ms = .ok es) :
    ∀ e ∈ es, ∃ atom ∈ ms, atomEntry tbl prim atom = .ok e := by
  induction ms generalizing es with
  | nil =>
    simp only [atomEntries] at h
    injection h with h2
    subst h2
    simp
  | cons a r ih =>
    simp only [atomEntries] at h
    split at h
    · exact absurd h (by simp)
    · next e0 he0 =>
      split at h
      · exact absurd h (by simp)
      · next es' hes' =>
        injection h with h2
        subst h2
        intro e he
        rcases List.mem_cons.mp he with rfl | htail
        · exact ⟨a, List.mem_cons_self a r, he0⟩
        · obtain ⟨atom, hm, hok⟩ := ih hes' e htail
          exact ⟨atom, List.mem_cons_of_mem a hm, hok⟩

lemma flatten_len_le {α : Type} (ls : List (List α))
    (h : ∀ l ∈ ls, l.length ≤ 1) : ls.flatten.length ≤ ls.length := by
  induction ls with
  | nil => simp
  | cons a r ih =>
    have ha : a.length ≤ 1 := h a (List.mem_cons_self a r)
    have hr : r.flatten.length ≤ r.length :=
      ih (fun l hl => h l (List.mem_cons_of_mem a hl))
    simp only [List.flatten_cons, List.length_append, List.length_cons]
    omega

lemma zip_aligned {α β γ : Type} (f : α → β → γ) :
    ∀ es : List (α × List β), (∀ e ∈ es, e.2.length ≤ 1) →
    (es.map Prod.fst).length = (es.map Prod.snd).flatten.length →
    ∀ c ∈ List.zipWith f (es.map Prod.fst) (es.map Prod.snd).flatten,
      ∃ e ∈ es, ∃ b, e.2 = [b] ∧ c = f e.1 b := by
  intro es
  induction es with
  | nil => intro _ _ c hc; simp at hc
  | cons e0 rest ih =>
    intro hle hlen c hc
    have hrest_le : ∀ e ∈ rest, e.2.length ≤ 1 :=
      fun e he => hle e (List.mem_cons_of_mem e0 he)
    have hjoin_le : (rest.map Prod.snd).flatten.length ≤ rest.length := by
      have := flatten_len_le (rest.map Prod.snd) (by
        intro l hl
        obtain ⟨e, he, rfl⟩ := List.mem_map.mp hl
        exact hrest_le e he)
      simpa using this
    have he0 : e0.2.length ≤ 1 := hle e0 (List.mem_cons_self e0 rest)
    match hbs : e0.2 with
    | [] =>
      rw [List.map_cons, List.map_cons, hbs] at hlen
      simp only [List.flatten_cons, List.nil_append, List.length_cons] at hlen
      simp only [List.length_map] at hlen hjoin_le
      omega
    | b :: bs' =>
      have hbs' : bs' = [] := by
        rw [hbs] at he0
        simpa using he0
      subst hbs'
      rw [List.map_cons, List.map_cons, hbs] at hc
      simp only [List.flatten_cons, List.singleton_append, List.zipWith_cons_cons] at hc
      rcases List.mem_cons.mp hc with rfl | htail
      · exact ⟨e0, List.mem_cons_self e0 rest, b, hbs, rfl⟩
      · have hlen' : (rest.map Prod.fst).length = (rest.map Prod.snd).flatten.length := by
          rw [List.map_cons, List.map_cons, hbs] at hlen
          simp only [List.flatten_cons, List.singleton_append, List.length_cons] at hlen
          omega
        obtain ⟨e, he, b', hb', hc'⟩ := ih hrest_le hlen' c htail
        exact ⟨e, List.mem_cons_of_mem e0 he, b', hb', hc'⟩

lemma tbl0_wf : TableWF tbl0 := by
  intro s h1 h2
  by_cases hs : s = "ALA"
  · subst hs
    exact absurd h2 (by decide)
  · have hb : (s == "ALA") = false := beq_eq_false_iff_ne.mpr hs
    simp only [tbl0, List.lookup, hb] at h1
    exact absurd h1 (by simp)

lemma rows_member_key {tbl : LookupTable} {prim : PyPrims}
    {m : List (List Char)} {es : List (BaseFields × List Props)}
    (hwf : TableWF tbl)
    (hes : atomEntries tbl prim m = .ok es)
    (hlen : (es.map Prod.fst).length = ((es.map Prod.snd).flatten).length)
    (r0 : Row)
    (hr0 : r0 ∈ (List.zipWith mkRow (es.map Prod.fst) ((es.map Prod.snd).flatten)).map
        (fun r => { r with R := r.R + tbl.Radius_H2O })) :
    ∃ atom ∈ m, ∃ p : Props, propsForAtomLine tbl atom = .ok [p] ∧
      r0.R = p.R + tbl.Radius_H2O ∧ r0.Atom = anaOf atom ∧
      r0.typ = p.typ ∧ r0.Surf = p.Surf ∧ r0.Volu = p.Volu := by
  obtain ⟨r1, hr1, rfl⟩ := List.mem_map.mp hr0
  have hle : ∀ e ∈ es, e.2.length ≤ 1 := by
    intro e he
    obtain ⟨b, ps⟩ := e
    obtain ⟨atom, _, hok⟩ := atomEntries_mem hes (b, ps) he
    exact propsForAtom_len_le hwf (atomEntry_ok_props hok).1
  obtain ⟨e, hees, b, hb2, rfl⟩ := zip_aligned mkRow es hle hlen r1 hr1
  obtain ⟨b1, ps⟩ := e
  obtain ⟨atom, hm, hok⟩ := atomEntries_mem hes (b1, ps) hees
  obtain ⟨hprops, hAtom⟩ := atomEntry_ok_props hok
  simp only at hb2
  subst hb2
  refine ⟨atom, hm, b, hprops, ?_, ?_, rfl, rfl, rfl⟩
  · simp [mkRow]
  · simpa [mkRow] using hAtom

/-- C9: every row of every partition returned by the classifier carries a
radius equal to the looked-up radius of its source atom plus the fixed
water-probe addend, added exactly once (and its atom name, type tag and
baseline surface/volume come from the same resolved entry). -/
theorem c9_radius_water_addend (tbl : LookupTable) (prim : PyPrims)
    (m : List (List Char)) (aaDf ntDf nsDf : Df)
    (hwf : TableWF tbl)
    (hp : parse_atom_model tbl prim m = .ok (aaDf, ntDf, nsDf))
    (r : OutRow) (hr : r ∈ aaDf.rows ∨ r ∈ ntDf.rows ∨ r ∈ nsDf.rows) :
    ∃ atom ∈ m, ∃ p : Props, propsForAtomLine tbl atom = .ok [p] ∧
      r.R = p.R + tbl.Radius_H2O ∧ r.Atom = anaOf atom ∧
      r.typ = p.typ ∧ r.Surf = p.Surf ∧ r.Volu = p.Volu := by
  simp only [parse_atom_model] at hp
  split at hp
  · exact absurd hp (by simp)
  · next es hes =>
    split at hp
    · next hlen =>
      injection hp with hp2
      injection hp2 with h1 h23
      injection h23 with h2 h3
      rcases hr with hcase | hcase | hcase
      · rw [← h1] at hcase
        obtain ⟨r0, hr0f, rfl⟩ := List.mem_map.mp hcase
        obtain ⟨atom, hm, p, hprops, hR, hAtom, hty, hsu, hvo⟩ :=
          rows_member_key hwf hes hlen r0 (List.mem_of_mem_filter hr0f)
        exact ⟨atom, hm, p, hprops, hR, hAtom, hty, hsu, hvo⟩
      · rw [← h2] at hcase
        obtain ⟨r0, hr0f, rfl⟩ := List.mem_map.mp hcase
        obtain ⟨atom, hm, p, hprops, hR, hAtom, hty, hsu, hvo⟩ :=
          rows_member_key hwf hes hlen r0 (List.mem_of_mem_filter hr0f)
        exact ⟨atom, hm, p, hprops, hR, hAtom, hty, hsu, hvo⟩
      · rw [← h3] at hcase
        obtain ⟨r0, hr0f, rfl⟩ := List.mem_map.mp hcase
        obtain ⟨atom, hm, p, hprops, hR, hAtom, hty, hsu, hvo⟩ :=
          rows_member_key hwf hes hlen r0 (List.mem_of_mem_filter hr0f)
        exact ⟨atom, hm, p, hprops, hR, hAtom, hty, hsu, hvo⟩
    · exact absurd hp (by simp)

/-- C9 witness: parsing a single alanine record with the sample table
yields one amino-acid row whose radius is the looked-up 2 plus the
water-probe addend 1. -/
theorem c9_radius_water_addend_witness :
    TableWF tbl0 ∧
    (∃ atom ∈ [alaLine], ∃ p : Props, propsForAtomLine tbl0 atom = .ok [p] ∧
      (⟨"A7-A", "CA", 0, 0, 0, 3, "C4", 10, 20⟩ : OutRow).R = p.R + tbl0.Radius_H2O ∧
      (⟨"A7-A", "CA", 0, 0, 0, 3, "C4", 10, 20⟩ : OutRow).Atom = anaOf atom ∧
      (⟨"A7-A", "CA", 0, 0, 0, 3, "C4", 10, 20⟩ : OutRow).typ = p.typ ∧
      (⟨"A7-A", "CA", 0, 0, 0, 3, "C4", 10, 20⟩ : OutRow).Surf = p.Surf ∧
      (⟨"A7-A", "CA", 0, 0, 0, 3, "C4", 10, 20⟩ : OutRow).Volu = p.Volu) :=
  ⟨tbl0_wf,
   c9_radius_water_addend tbl0 prim0 [alaLine]
     ⟨outColumns, [⟨"A7-A", "CA", 0, 0, 0, 3, "C4", 10, 20⟩]⟩
     ⟨outColumns, []⟩ ⟨outColumns, []⟩ tbl0_wf (by decide)
     ⟨"A7-A", "CA", 0, 0, 0, 3, "C4", 10, 20⟩ (Or.inl (by decide))⟩

/-- C1 (code bug): the combined table's columns never include `Name` (its
label column is `Residue`), so the column reduction of line 193 always
raises `KeyError` when reached; on a model whose volume step succeeds the
orchestrator therefore crashes before the surface step, and neither the
surface collaborator nor the reporting collaborator is ever invoked. -/
theorem c1_surface_report_never_reached :
    outColumns.contains "Name" = false ∧
    dfSelect ⟨outColumns, [⟨"A7-A", "CA", 0, 0, 0, 3, "C4", 10, 20⟩]⟩ contactWanted
      = .error () ∧
    cl0.volume (dfConcat3 ⟨outColumns, [⟨"A7-A", "CA", 0, 0, 0, 3, "C4", 10, 20⟩]⟩
      ⟨outColumns, []⟩ ⟨outColumns, []⟩) false 1 = ([0], [0]) ∧
    (arip_analyze cl0 tbl0 prim0 1 "f" [alaLine] 1 "ref" "out" [] false false).2
      = .error () ∧
    (arip_analyze cl0 tbl0 prim0 1 "f" [alaLine] 1 "ref" "out" [] false false).1.all
      (fun e => !e.isSurfaceCall && !e.isReportCall) = true := by
  decide

/-- C7: a simultaneously empty volume-step return makes the orchestrator
log the memory-skip line, return the sentinel pair `(-1, -1)` without
raising, invoke neither the surface collaborator nor the reporting
collaborator, and continue with the remaining models of the file. -/
theorem c7_memory_signal_shortcircuits (cl : Collab) (tbl : LookupTable)
    (prim : PyPrims) (idx : Int) (name : String) (m : List (List Char))
    (interval : Int) (ref_fp out_dp : String) (threshold : List Int)
    (density compress : Bool) (aaDf ntDf nsDf : Df)
    (rest : List (Int × List (List Char)))
    (hm : m ≠ [])
    (hp : parse_atom_model tbl prim m = .ok (aaDf, ntDf, nsDf))
    (hvol : cl.volume (dfConcat3 aaDf ntDf nsDf) density interval = ([], [])) :
    (arip_analyze cl tbl prim idx name m interval ref_fp out_dp threshold density compress).2
      = .ok (.memErr (-1, -1)) ∧
    Event.log (memSkipMsg name)
      ∈ (arip_analyze cl tbl prim idx name m interval ref_fp out_dp threshold density compress).1 ∧
    (∀ e ∈ (arip_analyze cl tbl prim idx name m interval ref_fp out_dp threshold density compress).1,
      e.isSurfaceCall = false ∧ e.isReportCall = false) ∧
    arip_model_loop cl tbl prim name interval ref_fp out_dp threshold density compress
        ((idx, m) :: rest)
      = (arip_analyze cl tbl prim idx name m interval ref_fp out_dp threshold density compress).1
        ++ arip_model_loop cl tbl prim name interval ref_fp out_dp threshold density compress rest := by
  rcases eq_or_ne aaDf.rows ([] : List OutRow) with haa | haa
  · have hana : arip_analyze cl tbl prim idx name m interval ref_fp out_dp threshold density compress
        = ([Event.classify m, Event.callVolume (dfConcat3 aaDf ntDf nsDf) density interval,
            Event.log (memSkipMsg name)], .ok (.memErr (-1, -1))) := by
      simp [arip_analyze, hp, hvol, haa]
    refine ⟨by rw [hana], by rw [hana]; simp, ?_, ?_⟩
    · intro e he
      rw [hana] at he
      simp only [List.mem_cons, List.not_mem_nil, or_false] at he
      rcases he with rfl | rfl | rfl
      all_goals exact ⟨rfl, rfl⟩
    · rw [arip_model_loop, if_neg hm, hana]
  · have hana : arip_analyze cl tbl prim idx name m interval ref_fp out_dp threshold density compress
        = ([Event.classify m, Event.callDihedral name m,
            Event.callVolume (dfConcat3 aaDf ntDf nsDf) density interval,
            Event.log (memSkipMsg name)], .ok (.memErr (-1, -1))) := by
      simp [arip_analyze, hp, hvol, haa]
    refine ⟨by rw [hana], by rw [hana]; simp, ?_, ?_⟩
    · intro e he
      rw [hana] at he
      simp only [List.mem_cons, List.not_mem_nil, or_false] at he
      rcases he with rfl | rfl | rfl | rfl
      all_goals exact ⟨rfl, rfl⟩
    · rw [arip_model_loop, if_neg hm, hana]

/-- C7 witness: the memory-signalling collaborators on a one-atom model,
followed by one sibling model that still gets processed. -/
theorem c7_memory_signal_shortcircuits_witness :
    ([alaLine] ≠ ([] : List (List Char)) ∧
     parse_atom_model tbl0 prim0 [alaLine]
       = .ok (⟨outColumns, [⟨"A7-A", "CA", 0, 0, 0, 3, "C4", 10, 20⟩]⟩,
              ⟨outColumns, []⟩, ⟨outColumns, []⟩) ∧
     clMem.volume (dfConcat3 ⟨outColumns, [⟨"A7-A", "CA", 0, 0, 0, 3, "C4", 10, 20⟩]⟩
       ⟨outColumns, []⟩ ⟨outColumns, []⟩) false 1 = ([], [])) ∧
    ((arip_analyze clMem tbl0 prim0 1 "f" [alaLine] 1 "ref" "out" [] false false).2
       = .ok (.memErr (-1, -1)) ∧
     Event.log (memSkipMsg "f")
       ∈ (arip_analyze clMem tbl0 prim0 1 "f" [alaLine] 1 "ref" "out" [] false false).1 ∧
     (∀ e ∈ (arip_analyze clMem tbl0 prim0 1 "f" [alaLine] 1 "ref" "out" [] false false).1,
       e.isSurfaceCall = false ∧ e.isReportCall = false) ∧
     arip_model_loop clMem tbl0 prim0 "f" 1 "ref" "out" [] false false
         ((1, [alaLine]) :: [(2, [alaAltA])])
       = (arip_analyze clMem tbl0 prim0 1 "f" [alaLine] 1 "ref" "out" [] false false).1
         ++ arip_model_loop clMem tbl0 prim0 "f" 1 "ref" "out" [] false false [(2, [alaAltA])]) :=
  ⟨⟨by decide, by decide, by decide⟩,
   c7_memory_signal_shortcircuits clMem tbl0 prim0 1 "f" [alaLine] 1 "ref" "out" []
     false false ⟨outColumns, [⟨"A7-A", "CA", 0, 0, 0, 3, "C4", 10, 20⟩]⟩
     ⟨outColumns, []⟩ ⟨outColumns, []⟩ [(2, [alaAltA])]
     (by decide) (by decide) (by decide)⟩

/-- C8: a model whose admissible-line set is empty contributes exactly one
log event (the skip line naming the file and, for an explicit model, its
index) to the file's trace; no collaborator and not the classifier is
invoked for it, no error is raised, and the loop continues with the
remaining models. -/
theorem c8_empty_model_noop (cl : Collab) (tbl : LookupTable) (prim : PyPrims)
    (name : String) (interval : Int) (ref_fp out_dp : String)
    (threshold : List Int) (density compress : Bool) (idx : Int)
    (rest : List (Int × List (List Char))) :
    arip_model_loop cl tbl prim name interval ref_fp out_dp threshold density compress
        ((idx, []) :: rest)
      = Event.log (emptySkipMsg name idx)
        :: arip_model_loop cl tbl prim name interval ref_fp out_dp threshold density compress rest ∧
    (Event.log (emptySkipMsg name idx)).isCall = false := by
  exact ⟨by rw [arip_model_loop, if_pos rfl], rfl⟩

end Arip
